import Mathlib

/-!
Shallow embedding of the Roster Store and Derived Metrics of the
student-management dashboard (src/app.jsx).

The roster is the React state `students : List StudentRecord`; the mutation
entry points are `handleAdmit`, `handlePayFees` and `toggleHostel`; the derived
metrics are `totalStudents`, `totalFees`, `hostelOccupancy` and
`occupancyByHostel`; the search is the `filtered` list.

Modelling conventions, each justified against the JavaScript source:
* `feesPaid` and payment amounts are `Int` (the program only adds and compares
  them); `Number(x.feesPaid || 0)` equals `feesPaid` for every number, so the
  `|| 0` coercion is the identity in this model.
* A record's `hostel` is `Option String`: `null` is `none`, a string `h`
  (possibly empty, as produced by the admission form's untouched text input)
  is `some h`.  Every test of `s.hostel` in the source is JavaScript
  truthiness, embedded as `hostelSet`: `null` and `""` are both falsy.
* A JavaScript object used as a counter map (`occupancyByHostel`) is an
  association list in insertion order, exactly how `Object.entries`
  enumerates it.
* `handleAdmit` is the one operation with a failure path (`alert` + early
  return, no mutation); it is embedded as `Except` with the spec's error kind.
  `handlePayFees` and `toggleHostel` have no failure path in the source: they
  always return normally, so their `Except`-typed views `handlePayFeesE` and
  `toggleHostelE` are always `Except.ok`.
-/

/-- The only domain entity: one student row of the roster. -/
structure StudentRecord where
  id : String
  name : String
  branch : String
  year : Int
  hostel : Option String
  feesPaid : Int
  admissionDate : String
deriving DecidableEq

/-- JavaScript truthiness of the `hostel` field, as used by every
`s.hostel` test in the source (`filter(s => s.hostel)`, `if (s.hostel)`):
`null` and the empty string are falsy, any other string is truthy. -/
def hostelSet (h : Option String) : Bool :=
  match h with
  | none => false
  | some s => !(s == "")

/-- The admission form state
`{ name: '', branch: '', year: 1, hostel: '', feesPaid: 0 }`:
all fields are always present, `hostel` is a plain string (empty when the
optional input is untouched). -/
structure AdmissionForm where
  name : String
  branch : String
  year : Int
  hostel : String
  feesPaid : Int
deriving DecidableEq

/-- The spec's two error kinds. -/
inductive RosterError where
  | notFound
  | validation
deriving DecidableEq

/-- `handleAdmit`: rejects when `!form.name || !form.branch` (empty string is
the only falsy string), otherwise builds
`{ id: uid(), ...form, admissionDate: today() }` and prepends it.  The
injected id generator and clock appear as the `freshId` and `currentDate`
parameters; the alert-and-return path is the `validation` error. -/
def handleAdmit (freshId : String) (currentDate : String)
    (form : AdmissionForm) (students : List StudentRecord) :
    Except RosterError (List StudentRecord) :=
  if form.name == "" || form.branch == "" then
    Except.error RosterError.validation
  else
    let newStudent : StudentRecord :=
      { id := freshId, name := form.name, branch := form.branch,
        year := form.year, hostel := some form.hostel,
        feesPaid := form.feesPaid, admissionDate := currentDate }
    Except.ok (newStudent :: students)

/-- `handlePayFees`: maps over the roster and, for every record whose id
matches, replaces `feesPaid` by `Number(s.feesPaid || 0) + Number(amount)`
(in this model `s.feesPaid + amount`).  No validation, no error path. -/
def handlePayFees (students : List StudentRecord)
    (studentId : String) (amount : Int) : List StudentRecord :=
  students.map fun s =>
    if s.id == studentId then { s with feesPaid := s.feesPaid + amount } else s

/-- `toggleHostel`: maps over the roster and, for every record whose id
matches, sets `hostel` to `null` when it strictly equals `hostelName`, and to
`hostelName` otherwise.  No validation, no error path. -/
def toggleHostel (students : List StudentRecord)
    (studentId : String) (hostelName : String) : List StudentRecord :=
  students.map fun s =>
    if s.id == studentId then
      { s with hostel := if s.hostel == some hostelName then none
                         else some hostelName }
    else s

/-- The outcome of a `handlePayFees` call in the spec's error model: the
source function always returns normally, so the outcome is always `ok`. -/
def handlePayFeesE (students : List StudentRecord)
    (studentId : String) (amount : Int) :
    Except RosterError (List StudentRecord) :=
  Except.ok (handlePayFees students studentId amount)

/-- The outcome of a `toggleHostel` call in the spec's error model: the
source function always returns normally, so the outcome is always `ok`. -/
def toggleHostelE (students : List StudentRecord)
    (studentId : String) (hostelName : String) :
    Except RosterError (List StudentRecord) :=
  Except.ok (toggleHostel students studentId hostelName)

/-- `metrics.totalStudents = students.length`. -/
def totalStudents (students : List StudentRecord) : Nat :=
  students.length

/-- `metrics.totalFees = students.reduce((s, x) => s + Number(x.feesPaid || 0), 0)`. -/
def totalFees (students : List StudentRecord) : Int :=
  students.foldl (fun s x => s + x.feesPaid) 0

/-- `metrics.hostelOccupancy = students.filter(s => s.hostel).length`. -/
def hostelOccupancy (students : List StudentRecord) : Nat :=
  (students.filter fun s => hostelSet s.hostel).length

/-- `acc[k] = (acc[k] || 0) + 1` on a JavaScript object: increment the entry
for `k` in place if present, otherwise append `(k, 1)` (a new object key is
enumerated last). -/
def bumpKey (acc : List (String × Nat)) (k : String) : List (String × Nat) :=
  match acc with
  | [] => [(k, 1)]
  | (k', c) :: rest =>
      if k' == k then (k', c + 1) :: rest else (k', c) :: bumpKey rest k

/-- `metrics.occupancyByHostel = students.reduce((acc, s) => { if (s.hostel)
acc[s.hostel] = (acc[s.hostel] || 0) + 1; return acc; }, {})`, the object
embedded as an insertion-ordered association list. -/
def occupancyByHostel (students : List StudentRecord) : List (String × Nat) :=
  students.foldl
    (fun acc s => if hostelSet s.hostel then bumpKey acc (s.hostel.getD "")
                  else acc) []

/-- `[s.name, s.branch, s.id].join(' ')`. -/
def searchKey (s : StudentRecord) : String :=
  s.name ++ " " ++ s.branch ++ " " ++ s.id

/-- JavaScript `String.prototype.includes` on character lists: `sub` occurs
contiguously in `s` (the empty string occurs in everything). -/
def listIncludes (s sub : List Char) : Bool :=
  match s with
  | [] => sub.isEmpty
  | c :: t => sub.isPrefixOf (c :: t) || listIncludes t sub

/-- `x.toLowerCase()` on the character list of a string (the records and
queries here are ASCII, where JavaScript `toLowerCase` is exactly
per-character lowering). -/
def lowerChars (s : String) : List Char :=
  s.data.map Char.toLower

/-- The `filtered` list: `students.filter(s => [s.name, s.branch,
s.id].join(' ').toLowerCase().includes(query.toLowerCase()))`. -/
def filtered (students : List StudentRecord) (query : String) :
    List StudentRecord :=
  students.filter fun s =>
    listIncludes (lowerChars (searchKey s)) (lowerChars query)

/-- A sequence of `handlePayFees` calls, each a `(studentId, amount)` pair,
applied in order. -/
def applyPayFees (students : List StudentRecord)
    (calls : List (String × Int)) : List StudentRecord :=
  calls.foldl (fun r c => handlePayFees r c.1 c.2) students

/-- The sum of the amounts a sequence of `handlePayFees` calls directs at a
given id (every call on an existing id succeeds in the source, so this is the
sum of all amounts applied to the record). -/
def paymentsTo (id : String) (calls : List (String × Int)) : Int :=
  (calls.map fun c => if c.1 == id then c.2 else 0).sum

/-- One Roster Store mutation, with the injected id generator and clock values
attached to the admission. -/
inductive RosterOp where
  | admission (freshId currentDate : String) (form : AdmissionForm)
  | pay (id : String) (amount : Int)
  | toggle (id label : String)

/-- Run one operation on the roster state.  A failed admission (the
alert-and-return path) leaves the state untouched, exactly as the source
returns before calling `setStudents`. -/
def applyOp (students : List StudentRecord) : RosterOp → List StudentRecord
  | RosterOp.admission freshId currentDate form =>
      match handleAdmit freshId currentDate form students with
      | Except.ok r2 => r2
      | Except.error _ => students
  | RosterOp.pay id amount => handlePayFees students id amount
  | RosterOp.toggle id label => toggleHostel students id label

/-- Run a sequence of operations in order. -/
def applyOps (students : List StudentRecord) (ops : List RosterOp) :
    List StudentRecord :=
  ops.foldl applyOp students

/-- The ids of the roster, in order. -/
def rosterIds (students : List StudentRecord) : List String :=
  students.map fun s => s.id

/-- The contract of the injected unique-id provider over a run: every id an
admission draws is fresh for the roster state at that moment (the source's
`uid()` is a random 7-character code; the spec injects it as a unique-id
provider, so its uniqueness is a hypothesis of this model, not a theorem). -/
def opFresh (students : List StudentRecord) : RosterOp → Bool
  | RosterOp.admission freshId _ _ => decide (freshId ∉ rosterIds students)
  | RosterOp.pay _ _ => true
  | RosterOp.toggle _ _ => true

def freshAdmissionIds (students : List StudentRecord) :
    List RosterOp → Bool
  | [] => true
  | op :: ops =>
      opFresh students op && freshAdmissionIds (applyOp students op) ops

/-!
Concrete sample records, used by the scenario parts of the theorems and by
the counterexamples.  `aisha`, `rohit` and `maya` mirror the three
`initialStudents` of the source, with fixed ids standing in for the random
`uid()` codes; `zara` is the record the admission scenario creates (its
`hostel` is the admission form's untouched empty string, which every
observation in the program treats as unallocated). -/

def aisha : StudentRecord :=
  { id := "AX101", name := "Aisha Verma", branch := "Computer Engg",
    year := 1, hostel := some "A", feesPaid := 15000,
    admissionDate := "2025-06-15" }

def rohit : StudentRecord :=
  { id := "BX202", name := "Rohit Sharma", branch := "Electronics",
    year := 2, hostel := some "B", feesPaid := 20000,
    admissionDate := "2024-08-21" }

def maya : StudentRecord :=
  { id := "MX303", name := "Maya Nair", branch := "Mechanical",
    year := 3, hostel := none, feesPaid := 0,
    admissionDate := "2023-07-01" }

def zara : StudentRecord :=
  { id := "Z1", name := "Zara Khan", branch := "Civil", year := 2,
    hostel := some "", feesPaid := 0, admissionDate := "2025-01-10" }

/-! ## Helper lemmas -/

/-- Elementwise view of `handlePayFees`. -/
theorem handlePayFees_getElem (students : List StudentRecord)
    (studentId : String) (amount : Int) (i : Nat) :
    (handlePayFees students studentId amount)[i]? =
      (students[i]?).map fun s =>
        if s.id == studentId then { s with feesPaid := s.feesPaid + amount }
        else s := by
  simp [handlePayFees, List.getElem?_map]

/-- Elementwise view of `toggleHostel`. -/
theorem toggleHostel_getElem (students : List StudentRecord)
    (studentId hostelName : String) (i : Nat) :
    (toggleHostel students studentId hostelName)[i]? =
      (students[i]?).map fun s =>
        if s.id == studentId then
          { s with hostel := if s.hostel == some hostelName then none
                             else some hostelName }
        else s := by
  simp [toggleHostel, List.getElem?_map]

/-- A map whose function fixes every element of the list is the identity. -/
theorem map_eq_self_of_fixed {α : Type} (f : α → α) (l : List α)
    (h : ∀ a ∈ l, f a = a) : l.map f = l :=
  (List.map_congr_left h).trans (List.map_id l)

/-- `handlePayFees` leaves a roster without the target id unchanged. -/
theorem handlePayFees_of_unmatched (students : List StudentRecord)
    (studentId : String) (amount : Int)
    (h : ∀ s ∈ students, s.id ≠ studentId) :
    handlePayFees students studentId amount = students := by
  refine map_eq_self_of_fixed _ _ fun s hs => ?_
  have hbeq : (s.id == studentId) = false := by
    simpa using h s hs
  simp [hbeq]

/-- `toggleHostel` leaves a roster without the target id unchanged. -/
theorem toggleHostel_of_unmatched (students : List StudentRecord)
    (studentId hostelName : String)
    (h : ∀ s ∈ students, s.id ≠ studentId) :
    toggleHostel students studentId hostelName = students := by
  refine map_eq_self_of_fixed _ _ fun s hs => ?_
  have hbeq : (s.id == studentId) = false := by
    simpa using h s hs
  simp [hbeq]

/-- The record stored at a position after a `toggleHostel` call, as a
function of the record stored there before it. -/
theorem toggleHostel_get_eq (students : List StudentRecord) (id L : String)
    (i : Nat) (s0 : StudentRecord) (h : students[i]? = some s0) :
    (toggleHostel students id L)[i]? =
      some (if s0.id == id then
              { s0 with hostel := if s0.hostel == some L then none
                                  else some L }
            else s0) := by
  rw [toggleHostel_getElem students id L i, h]
  rfl

/-! ## C1: payFees validation and accumulation -/

/-- C1 counterexample: `payFees` does not reject a non-positive amount.  On a
one-record roster, paying `-5` to the existing record changes its `feesPaid`
from `20000` to `19995` and the call returns normally rather than failing
with a `ValidationError`. -/
theorem payFees_nonpositive_cex :
    ((handlePayFees [rohit] "BX202" (-5)).map fun s => s.feesPaid) = [19995] ∧
    handlePayFeesE [rohit] "BX202" (-5) ≠
      Except.error RosterError.validation ∧
    rohit.feesPaid = 20000 ∧ (19995 : Int) ≠ 20000 := by
  refine ⟨by decide, by simp [handlePayFeesE], by decide, by decide⟩

/-- C1 (amended): `handlePayFees` performs no validation at all: every call
adds its amount (positive, zero or negative) to every record whose id
matches, so after any sequence of calls each record's `feesPaid` equals its
initial value plus the sum of all amounts directed at its id. -/
theorem payFees_accumulates (students : List StudentRecord)
    (calls : List (String × Int)) (i : Nat) (s0 : StudentRecord)
    (h : students[i]? = some s0) :
    (applyPayFees students calls)[i]? =
      some { s0 with feesPaid := s0.feesPaid + paymentsTo s0.id calls } := by
  induction calls generalizing students s0 with
  | nil =>
      simpa [applyPayFees, paymentsTo] using h
  | cons c cs ih =>
      have h1 := handlePayFees_getElem students c.1 c.2 i
      rw [h] at h1
      have hstep : applyPayFees students (c :: cs) =
          applyPayFees (handlePayFees students c.1 c.2) cs := rfl
      rw [hstep]
      by_cases hid : s0.id = c.1
      · have h2 := ih (handlePayFees students c.1 c.2)
          { s0 with feesPaid := s0.feesPaid + c.2 } (by simpa [hid] using h1)
        rw [h2]
        simp [paymentsTo, hid, add_assoc]
      · have h2 := ih (handlePayFees students c.1 c.2) s0
          (by simpa [hid] using h1)
        rw [h2]
        have hid2 : ¬ c.1 = s0.id := fun hc => hid hc.symm
        simp [paymentsTo, hid2]

/-- C1 witness: two successful payments of `5000` and `2500` to `"Z1"` (with
an interleaved payment to an unknown id) leave `"Z1"` with `feesPaid`
`7500`. -/
theorem payFees_accumulates_witness :
    (applyPayFees [zara] [("Z1", 5000), ("NOPE", 77), ("Z1", 2500)])[0]? =
      some { zara with feesPaid := 7500 } := by
  rw [payFees_accumulates [zara] [("Z1", 5000), ("NOPE", 77), ("Z1", 2500)]
    0 zara rfl]
  decide

/-! ## C3: payFees on an unknown id -/

/-- C3 counterexample: `payFees` on an id that matches no record does not
fail with a `NotFoundError`: it returns normally (the map matches nothing),
leaving the roster unchanged. -/
theorem payFees_unknown_cex :
    handlePayFeesE [maya] "UNKNOWN" 100 = Except.ok [maya] ∧
    (Except.ok [maya] : Except RosterError (List StudentRecord)) ≠
      Except.error RosterError.notFound := by
  refine ⟨?_, by simp⟩
  have : handlePayFees [maya] "UNKNOWN" 100 = [maya] := by decide
  simp [handlePayFeesE, this]

/-- C3 (amended): when no record carries the target id, `handlePayFees`
returns normally (no `NotFoundError` is raised) and the roster after the call
is identical to the roster before it. -/
theorem payFees_unknown_id (students : List StudentRecord) (id : String)
    (amount : Int) (h : ∀ s ∈ students, s.id ≠ id) :
    handlePayFeesE students id amount = Except.ok students := by
  rw [handlePayFeesE, handlePayFees_of_unmatched students id amount h]

/-- C3 witness: paying an unknown id on a two-record roster returns the
roster unchanged. -/
theorem payFees_unknown_id_witness :
    handlePayFeesE [aisha, rohit] "NOPE" 50 = Except.ok [aisha, rohit] :=
  payFees_unknown_id [aisha, rohit] "NOPE" 50 (by decide)

/-! ## C4: toggleHostel semantics -/

/-- C4 counterexample: `toggleHostel` on an id that matches no record does
not fail with a `NotFoundError`: it returns normally with the roster
unchanged. -/
theorem toggle_unknown_cex :
    toggleHostelE [aisha] "UNKNOWN" "B" = Except.ok [aisha] ∧
    (Except.ok [aisha] : Except RosterError (List StudentRecord)) ≠
      Except.error RosterError.notFound := by
  refine ⟨?_, by simp⟩
  have : toggleHostel [aisha] "UNKNOWN" "B" = [aisha] := by decide
  simp [toggleHostelE, this]

/-- C4 (amended): on an unknown id `toggleHostel` returns normally with the
roster unchanged (no `NotFoundError`); on every record whose id matches, it
clears `hostel` when the current value strictly equals the label and sets it
to the label in every other case (including a current assignment to a
different hostel). -/
theorem toggleHostel_semantics (students : List StudentRecord)
    (id L : String) :
    ((∀ s ∈ students, s.id ≠ id) →
      toggleHostelE students id L = Except.ok students) ∧
    (∀ (i : Nat) (s0 : StudentRecord), students[i]? = some s0 →
      (toggleHostel students id L)[i]? =
        some (if s0.id == id then
                { s0 with hostel := if s0.hostel == some L then none
                                    else some L }
              else s0)) := by
  constructor
  · intro h
    rw [toggleHostelE, toggleHostel_of_unmatched students id L h]
  · exact fun i s0 h => toggleHostel_get_eq students id L i s0 h

/-- C4 witness: toggling hostel `"B"` on a record currently in `"B"` releases
it, and toggling an unknown id leaves the roster unchanged. -/
theorem toggleHostel_semantics_witness :
    toggleHostelE [rohit] "NOPE" "A" = Except.ok [rohit] ∧
    (toggleHostel [rohit] "BX202" "B")[0]? =
      some { rohit with hostel := none } := by
  refine ⟨(toggleHostel_semantics [rohit] "NOPE" "A").1 (by decide), ?_⟩
  rw [(toggleHostel_semantics [rohit] "BX202" "B").2 0 rohit rfl]
  decide

/-! ## C2: double toggle round trip -/

/-- C2 counterexample: the double toggle is not a round trip when the record
is currently assigned to a different hostel.  On a record assigned to `"B"`,
toggling label `"A"` twice ends with `hostel` absent, not `"B"`. -/
theorem toggle_twice_cex :
    ((toggleHostel (toggleHostel [rohit] "BX202" "A") "BX202" "A").map
      fun s => s.hostel) = [none] ∧
    rohit.hostel = some "B" ∧ (none : Option String) ≠ some "B" := by
  decide

/-- C2 (amended): toggling the same label twice restores the matched record's
`hostel` exactly when its prior value was absent or already that label; when
it was a different label the two toggles leave `hostel` absent.  In the
spec's scenario the admitted record `"Z1"` ends with `hostel` unallocated and
`occupancyByHostel` has no `"A"` key. -/
theorem toggle_twice_roundtrip (students : List StudentRecord)
    (id L : String) (i : Nat) (s0 : StudentRecord)
    (h : students[i]? = some s0) :
    ((toggleHostel (toggleHostel students id L) id L)[i]? =
      some (if s0.id == id then
              { s0 with hostel := if s0.hostel == some L then s0.hostel
                                  else none }
            else s0)) ∧
    ((toggleHostel (toggleHostel [zara] "Z1" "A") "Z1" "A").map
      fun s => hostelSet s.hostel) = [false] ∧
    occupancyByHostel (toggleHostel (toggleHostel [zara] "Z1" "A") "Z1" "A")
      = [] := by
  refine ⟨?_, by decide, by decide⟩
  have h1 := toggleHostel_get_eq students id L i s0 h
  have h2 := toggleHostel_get_eq (toggleHostel students id L) id L i _ h1
  rw [h2]
  by_cases hid : s0.id = id
  · by_cases hh : s0.hostel = some L
    · simp [hid, hh]
    · have hbeq : (s0.hostel == some L) = false := by simpa using hh
      simp [hid, hbeq]
  · simp [hid]

/-- C2 witness: on the unallocated record `maya`, toggling `"A"` twice
restores `hostel` to its prior (absent) value. -/
theorem toggle_twice_roundtrip_witness :
    (toggleHostel (toggleHostel [maya] "MX303" "A") "MX303" "A")[0]? =
      some maya := by
  rw [(toggle_twice_roundtrip [maya] "MX303" "A" 0 maya rfl).1]
  decide

/-! ## C10: toggleHostel frame property -/

/-- C10: `toggleHostel` changes at most the `hostel` field of the records
whose id matches: length and order are preserved, every field other than
`hostel` of the record at each position is unchanged, and a record whose id
differs from the target is unchanged in full. -/
theorem toggleHostel_frame (students : List StudentRecord) (id label : String) :
    (toggleHostel students id label).length = students.length ∧
    (∀ (i : Nat) (s0 s1 : StudentRecord), students[i]? = some s0 →
      (toggleHostel students id label)[i]? = some s1 →
      s1.id = s0.id ∧ s1.name = s0.name ∧ s1.branch = s0.branch ∧
      s1.year = s0.year ∧ s1.feesPaid = s0.feesPaid ∧
      s1.admissionDate = s0.admissionDate ∧ (¬ s0.id = id → s1 = s0)) := by
  constructor
  · simp [toggleHostel]
  · intro i s0 s1 h0 h1
    rw [toggleHostel_getElem students id label i, h0] at h1
    simp only [Option.map_some'] at h1
    injection h1 with h2
    by_cases hid : s0.id = id
    · rw [← h2]
      simp [hid]
    · rw [← h2]
      simp [hid]

/-- C10 witness: toggling `"B"` on `aisha` (currently in `"A"`) moves only
her `hostel` field, every other field being unchanged. -/
theorem toggleHostel_frame_witness :
    ({ aisha with hostel := some "B" } : StudentRecord).id = aisha.id ∧
    ({ aisha with hostel := some "B" } : StudentRecord).name = aisha.name ∧
    ({ aisha with hostel := some "B" } : StudentRecord).branch = aisha.branch ∧
    ({ aisha with hostel := some "B" } : StudentRecord).year = aisha.year ∧
    ({ aisha with hostel := some "B" } : StudentRecord).feesPaid =
      aisha.feesPaid ∧
    ({ aisha with hostel := some "B" } : StudentRecord).admissionDate =
      aisha.admissionDate ∧
    (¬ aisha.id = "AX101" →
      ({ aisha with hostel := some "B" } : StudentRecord) = aisha) :=
  (toggleHostel_frame [aisha, maya] "AX101" "B").2 0 aisha
    { aisha with hostel := some "B" } rfl (by decide)

/-! ## C5: feesPaid monotonicity -/

/-- C5 counterexample: `feesPaid` can decrease under a Roster Store
operation: paying a negative amount lowers it (the source performs no
validation), so the monotonicity invariant fails as stated. -/
theorem feesPaid_monotone_cex :
    ((handlePayFees [aisha] "AX101" (-100)).map fun s => s.feesPaid) =
      [14900] ∧
    aisha.feesPaid = 15000 ∧ ¬ ((15000 : Int) ≤ 14900) := by
  decide

/-- C5 (amended): `feesPaid` never decreases under a payment of a
nonnegative amount, is exactly preserved by `toggleHostel`, and surviving
records are untouched by a successful admission (which only prepends); the
invariant as stated fails only because a negative payment amount is not
rejected. -/
theorem feesPaid_monotone (students : List StudentRecord)
    (id label freshId currentDate : String) (form : AdmissionForm)
    (amount : Int) (hamt : 0 ≤ amount) :
    (∀ (i : Nat) (s0 s1 : StudentRecord), students[i]? = some s0 →
      (handlePayFees students id amount)[i]? = some s1 →
      s0.feesPaid ≤ s1.feesPaid) ∧
    (∀ (i : Nat) (s0 s1 : StudentRecord), students[i]? = some s0 →
      (toggleHostel students id label)[i]? = some s1 →
      s1.feesPaid = s0.feesPaid) ∧
    (∀ r2 : List StudentRecord,
      handleAdmit freshId currentDate form students = Except.ok r2 →
      r2.tail = students) := by
  refine ⟨?_, ?_, ?_⟩
  · intro i s0 s1 h0 h1
    rw [handlePayFees_getElem students id amount i, h0] at h1
    simp only [Option.map_some'] at h1
    injection h1 with h2
    by_cases hid : s0.id = id
    · rw [← h2]
      simp [hid]
      omega
    · rw [← h2]
      simp [hid]
  · intro i s0 s1 h0 h1
    rw [toggleHostel_getElem students id label i, h0] at h1
    simp only [Option.map_some'] at h1
    injection h1 with h2
    by_cases hid : s0.id = id
    · rw [← h2]
      simp [hid]
    · rw [← h2]
      simp [hid]
  · intro r2 h
    rw [handleAdmit] at h
    split at h
    · cases h
    · injection h with h2
      rw [← h2]
      rfl

/-- C5 witness: a `500` payment raises `rohit`'s balance, a hostel toggle
leaves it unchanged, and an admission leaves the existing roster as the tail
of the new one. -/
theorem feesPaid_monotone_witness :
    rohit.feesPaid ≤
      ({ rohit with feesPaid := 20500 } : StudentRecord).feesPaid ∧
    ({ rohit with hostel := some "A" } : StudentRecord).feesPaid =
      rohit.feesPaid ∧
    ([{ id := "F9", name := "Neel", branch := "IT", year := 1,
        hostel := some "", feesPaid := 0, admissionDate := "2025-07-01" },
      rohit] : List StudentRecord).tail = [rohit] := by
  have h := feesPaid_monotone [rohit] "BX202" "A" "F9" "2025-07-01"
    { name := "Neel", branch := "IT", year := 1, hostel := "", feesPaid := 0 }
    500 (by decide)
  refine ⟨h.1 0 rohit { rohit with feesPaid := 20500 } rfl (by decide),
    h.2.1 0 rohit { rohit with hostel := some "A" } rfl (by decide), ?_⟩
  exact h.2.2
    [{ id := "F9", name := "Neel", branch := "IT", year := 1,
       hostel := some "", feesPaid := 0, admissionDate := "2025-07-01" },
     rohit] rfl

/-! ## C6: admission validation and scenario -/

/-- C6: `handleAdmit` fails with a `ValidationError` exactly when the name or
the branch is empty (the only falsy strings; nothing is mutated on that
path), and otherwise prepends the new record built from the form, the
injected id and the injected date.  In the spec's scenario the created record
is `zara`, whose `hostel` (the form's untouched empty string) is unallocated
at every observation point (`hostelSet` is false) and whose `feesPaid`
defaults to `0`. -/
theorem handleAdmit_spec (freshId currentDate : String) (form : AdmissionForm)
    (students : List StudentRecord) :
    (handleAdmit freshId currentDate form students =
        Except.error RosterError.validation ↔
      (form.name = "" ∨ form.branch = "")) ∧
    (form.name ≠ "" → form.branch ≠ "" →
      handleAdmit freshId currentDate form students =
        Except.ok
          ({ id := freshId, name := form.name, branch := form.branch,
             year := form.year, hostel := some form.hostel,
             feesPaid := form.feesPaid,
             admissionDate := currentDate } :: students)) ∧
    (handleAdmit "Z1" "2025-01-10"
        { name := "Zara Khan", branch := "Civil", year := 2, hostel := "",
          feesPaid := 0 } [] = Except.ok [zara] ∧
      hostelSet zara.hostel = false ∧ zara.feesPaid = 0) := by
  refine ⟨?_, ?_, rfl, by decide, by decide⟩
  · rw [handleAdmit]
    by_cases h1 : form.name = ""
    · simp [h1]
    · by_cases h2 : form.branch = ""
      · simp [h1, h2]
      · simp [h1, h2]
  · intro h1 h2
    rw [handleAdmit]
    simp [h1, h2]

/-- C6 witness: a concrete valid admission prepends exactly the record built
from the form, the injected id and the injected date. -/
theorem handleAdmit_spec_witness :
    handleAdmit "W9" "2025-05-05"
        { name := "Bob Roy", branch := "EE", year := 1, hostel := "",
          feesPaid := 0 } [] =
      Except.ok
        [{ id := "W9", name := "Bob Roy", branch := "EE", year := 1,
           hostel := some "", feesPaid := 0,
           admissionDate := "2025-05-05" }] :=
  (handleAdmit_spec "W9" "2025-05-05"
    { name := "Bob Roy", branch := "EE", year := 1, hostel := "",
      feesPaid := 0 } []).2.1 (by decide) (by decide)

/-! ## C8: search -/

/-- The empty query is a substring of everything, as for JavaScript
`includes`. -/
theorem listIncludes_nil (s : List Char) : listIncludes s [] = true := by
  cases s <;> rfl

/-- C8: `filtered` returns exactly the records whose space-joined `name`,
`branch` and `id` contains the query as a case-insensitive substring,
preserving store order (it is a sublist of the roster), and the empty query
returns the full roster. -/
theorem search_spec (students : List StudentRecord) (query : String) :
    List.Sublist (filtered students query) students ∧
    (∀ s : StudentRecord, s ∈ filtered students query ↔
      s ∈ students ∧
        listIncludes (lowerChars (searchKey s)) (lowerChars query) = true) ∧
    filtered students "" = students := by
  refine ⟨List.filter_sublist students, fun s => List.mem_filter, ?_⟩
  exact List.filter_eq_self.mpr
    fun s _ => listIncludes_nil (lowerChars (searchKey s))

/-! ## C7: id uniqueness -/

/-- `handlePayFees` never changes the id sequence. -/
theorem rosterIds_handlePayFees (students : List StudentRecord)
    (id : String) (amount : Int) :
    rosterIds (handlePayFees students id amount) = rosterIds students := by
  rw [rosterIds, rosterIds, handlePayFees, List.map_map]
  refine List.map_congr_left fun s _ => ?_
  by_cases h : s.id = id <;> simp [h, Function.comp]

/-- `toggleHostel` never changes the id sequence. -/
theorem rosterIds_toggleHostel (students : List StudentRecord)
    (id label : String) :
    rosterIds (toggleHostel students id label) = rosterIds students := by
  rw [rosterIds, rosterIds, toggleHostel, List.map_map]
  refine List.map_congr_left fun s _ => ?_
  by_cases h : s.id = id <;> simp [h, Function.comp]

/-- A successful admission prepends exactly the injected id. -/
theorem rosterIds_handleAdmit (freshId currentDate : String)
    (form : AdmissionForm) (students r2 : List StudentRecord)
    (h : handleAdmit freshId currentDate form students = Except.ok r2) :
    rosterIds r2 = freshId :: rosterIds students := by
  rw [handleAdmit] at h
  split at h
  · cases h
  · injection h with h2
    rw [← h2]
    rfl

/-- C7: starting from a roster with pairwise-distinct ids, any sequence of
operations in which every admission draws an id that is fresh for the roster
state at that moment (the contract of the injected unique-id provider)
preserves pairwise distinctness of all record ids. -/
theorem admit_ids_unique (students : List StudentRecord)
    (ops : List RosterOp) (h1 : (rosterIds students).Nodup)
    (h2 : freshAdmissionIds students ops = true) :
    (rosterIds (applyOps students ops)).Nodup := by
  induction ops generalizing students with
  | nil => exact h1
  | cons op ops ih =>
      rw [freshAdmissionIds, Bool.and_eq_true] at h2
      have hstep : applyOps students (op :: ops) =
          applyOps (applyOp students op) ops := rfl
      rw [hstep]
      refine ih (applyOp students op) ?_ h2.2
      cases op with
      | pay id amount =>
          rw [show applyOp students (RosterOp.pay id amount) =
            handlePayFees students id amount from rfl]
          rw [rosterIds_handlePayFees]
          exact h1
      | toggle id label =>
          rw [show applyOp students (RosterOp.toggle id label) =
            toggleHostel students id label from rfl]
          rw [rosterIds_toggleHostel]
          exact h1
      | admission freshId currentDate form =>
          have hfresh : freshId ∉ rosterIds students :=
            of_decide_eq_true h2.1
          cases hadm : handleAdmit freshId currentDate form students with
          | error e =>
              rw [show applyOp students
                  (RosterOp.admission freshId currentDate form) =
                match handleAdmit freshId currentDate form students with
                | Except.ok r2 => r2
                | Except.error _ => students from rfl]
              rw [hadm]
              exact h1
          | ok r2 =>
              rw [show applyOp students
                  (RosterOp.admission freshId currentDate form) =
                match handleAdmit freshId currentDate form students with
                | Except.ok r2 => r2
                | Except.error _ => students from rfl]
              rw [hadm]
              rw [rosterIds_handleAdmit freshId currentDate form students r2
                hadm]
              exact List.nodup_cons.mpr ⟨hfresh, h1⟩

/-- C7 witness: two admissions with fresh injected ids followed by a payment
and a toggle leave the roster with pairwise-distinct ids. -/
theorem admit_ids_unique_witness :
    (rosterIds (applyOps []
      [RosterOp.admission "Z1" "2025-01-10"
         { name := "Zara Khan", branch := "Civil", year := 2, hostel := "",
           feesPaid := 0 },
       RosterOp.admission "Z2" "2025-01-11"
         { name := "Ira Das", branch := "Civil", year := 1, hostel := "",
           feesPaid := 0 },
       RosterOp.pay "Z1" 100,
       RosterOp.toggle "Z2" "A"])).Nodup :=
  admit_ids_unique []
    [RosterOp.admission "Z1" "2025-01-10"
       { name := "Zara Khan", branch := "Civil", year := 2, hostel := "",
         feesPaid := 0 },
     RosterOp.admission "Z2" "2025-01-11"
       { name := "Ira Das", branch := "Civil", year := 1, hostel := "",
         feesPaid := 0 },
     RosterOp.pay "Z1" 100,
     RosterOp.toggle "Z2" "A"] (by decide) (by decide)

/-! ## C9: occupancyByHostel versus hostelOccupancy -/

/-- Bumping a key raises the total of the counter values by exactly one. -/
theorem bumpKey_sum (acc : List (String × Nat)) (k : String) :
    ((bumpKey acc k).map fun kv => kv.2).sum =
      ((acc.map fun kv => kv.2)).sum + 1 := by
  induction acc with
  | nil => rfl
  | cons kv rest ih =>
      obtain ⟨k1, c⟩ := kv
      rw [bumpKey]
      by_cases h : k1 = k
      · simp [h]
        omega
      · simp [h, ih]
        omega

/-- Every key after a bump was already a key or is the bumped key. -/
theorem bumpKey_keys (acc : List (String × Nat)) (k k2 : String)
    (h : k2 ∈ (bumpKey acc k).map fun kv => kv.1) :
    (k2 ∈ (acc.map fun kv => kv.1)) ∨ k2 = k := by
  induction acc with
  | nil =>
      simp [bumpKey] at h
      exact Or.inr h
  | cons kv rest ih =>
      obtain ⟨k1, c⟩ := kv
      rw [bumpKey] at h
      by_cases hk : k1 = k
      · rw [if_pos (by simpa using hk)] at h
        exact Or.inl (by simpa using h)
      · rw [if_neg (by simpa using hk)] at h
        simp only [List.map_cons, List.mem_cons] at h
        rcases h with h | h
        · exact Or.inl (by simp [h])
        · rcases ih h with h2 | h2
          · exact Or.inl (by simp [h2])
          · exact Or.inr h2

/-- A truthy hostel is `some` of its default-read value. -/
theorem hostelSet_some (h0 : Option String) (h : hostelSet h0 = true) :
    h0 = some (h0.getD "") := by
  cases h0 with
  | none => cases h
  | some s => rfl

/-- Generalised fold invariant: the counter total after folding a roster
segment is the starting total plus the number of truthy-hostel records in the
segment. -/
theorem occupancy_fold_sum (l : List StudentRecord)
    (acc : List (String × Nat)) :
    (((l.foldl
        (fun acc s => if hostelSet s.hostel then bumpKey acc (s.hostel.getD "")
                      else acc) acc).map fun kv => kv.2)).sum =
      ((acc.map fun kv => kv.2)).sum +
        (l.filter fun s => hostelSet s.hostel).length := by
  induction l generalizing acc with
  | nil => simp
  | cons s t ih =>
      rw [List.foldl_cons]
      by_cases h : hostelSet s.hostel = true
      · rw [if_pos h, ih, bumpKey_sum]
        simp [List.filter_cons, h]
        omega
      · rw [if_neg h, ih]
        simp [List.filter_cons, h]

/-- Generalised fold invariant: every key of the counter after folding a
roster segment was a starting key or is held by some record of the
segment. -/
theorem occupancy_fold_keys (l : List StudentRecord)
    (acc : List (String × Nat)) (k : String)
    (h : k ∈ ((l.foldl
        (fun acc s => if hostelSet s.hostel then bumpKey acc (s.hostel.getD "")
                      else acc) acc).map fun kv => kv.1)) :
    (k ∈ (acc.map fun kv => kv.1)) ∨ ∃ s, s ∈ l ∧ s.hostel = some k := by
  induction l generalizing acc with
  | nil => exact Or.inl h
  | cons s t ih =>
      rw [List.foldl_cons] at h
      by_cases hs : hostelSet s.hostel = true
      · rw [if_pos hs] at h
        rcases ih (bumpKey acc (s.hostel.getD "")) h with h2 | h2
        · rcases bumpKey_keys acc (s.hostel.getD "") k h2 with h3 | h3
          · exact Or.inl h3
          · refine Or.inr ⟨s, List.mem_cons_self s t, ?_⟩
            rw [hostelSet_some s.hostel hs, h3]
        · obtain ⟨s2, hs2, hk⟩ := h2
          exact Or.inr ⟨s2, List.mem_cons_of_mem s hs2, hk⟩
      · rw [if_neg hs] at h
        rcases ih acc h with h2 | h2
        · exact Or.inl h2
        · obtain ⟨s2, hs2, hk⟩ := h2
          exact Or.inr ⟨s2, List.mem_cons_of_mem s hs2, hk⟩

/-- C9: the values of `occupancyByHostel` sum exactly to `hostelOccupancy`,
and every key of `occupancyByHostel` is a label actually held by at least one
record of the roster. -/
theorem occupancy_matches (students : List StudentRecord) :
    ((occupancyByHostel students).map fun kv => kv.2).sum =
      hostelOccupancy students ∧
    (∀ k : String, (k ∈ (occupancyByHostel students).map fun kv => kv.1) →
      students.any (fun s => s.hostel == some k) = true) := by
  constructor
  · have h := occupancy_fold_sum students []
    simpa [occupancyByHostel, hostelOccupancy] using h
  · intro k hk
    have h := occupancy_fold_keys students [] k
      (by simpa [occupancyByHostel] using hk)
    rcases h with h | h
    · simp at h
    · obtain ⟨s, hs, hk2⟩ := h
      rw [List.any_eq_true]
      exact ⟨s, hs, by simp [hk2]⟩

/-- C9 witness: on a roster holding hostels `"A"`, `"B"`, `"B"` the key
`"B"` of `occupancyByHostel` is a label some record actually holds. -/
theorem occupancy_matches_witness :
    ([aisha, rohit, { rohit with id := "CX404" }].any
      fun s => s.hostel == some "B") = true :=
  (occupancy_matches [aisha, rohit, { rohit with id := "CX404" }]).2 "B"
    (by decide)
